import Mathlib

/-!
Shallow embedding of the apollo79/timers library core
(src/Timer.ts, src/Timeout.ts, src/Interval.ts, src/util.ts, mod.ts).

JavaScript numbers are modelled as `JSNum` (finite values as exact
rationals, plus NaN and the two infinities); all arithmetic appearing in
the code (comparison, subtraction by 2^31-1, strict equality) is exact on
the values the library manipulates.  Timer callbacks are opaque: the model
records the number of invocations in `cbCount` and whether the callback
throws in the flag `cbThrows`.  The host event loop is modelled by an
explicit `pending` slot (the single outstanding native `setTimeout`
handle, tagged with the handler the code installed and the requested
duration) together with an `expire` step function that executes the
installed handler, exactly following the code of `Timeout.#run` /
`Interval.#run`.  The global `timers` map of Timer.ts is projected to the
per-timer membership bit `inRegistry` (ids are unique, so membership of
this timer's id is a per-timer fact).
-/

/-- mod.ts: `export const TIMEOUT_MAX = 2147483647; // 2^31-1` (as a ℚ). -/
def TIMEOUT_MAX : ℚ := 2147483647

/-- The same constant as a natural number, for stating claims over ℕ. -/
def TIMEOUT_MAXN : ℕ := 2147483647

/-- A JavaScript number: a finite value (exact rational), NaN, or ±Infinity. -/
inductive JSNum where
  | num : ℚ → JSNum
  | nan : JSNum
  | inf : JSNum
  | ninf : JSNum
deriving Repr, DecidableEq

/-- JavaScript strict equality `===` on numbers: `NaN === x` is false for
every `x` (including NaN); other values compare by value. -/
def jsEq (a b : JSNum) : Bool :=
  match a, b with
  | .num x, .num y => x = y
  | .inf, .inf => true
  | .ninf, .ninf => true
  | _, _ => false

/-- JavaScript `<` on numbers: any comparison with NaN is false. -/
def jsLt (a b : JSNum) : Bool :=
  match a, b with
  | .nan, _ => false
  | _, .nan => false
  | .num x, .num y => x < y
  | .num _, .inf => true
  | .num _, .ninf => false
  | .inf, _ => false
  | .ninf, .ninf => false
  | .ninf, _ => true

/-- JavaScript `Math.sign`: -1 / 0 / 1 on finite values, NaN on NaN,
±1 on ±Infinity. -/
def mathSign (a : JSNum) : JSNum :=
  match a with
  | .num x => .num (if x < 0 then -1 else if x = 0 then 0 else 1)
  | .nan => .nan
  | .inf => .num 1
  | .ninf => .num (-1)

/-- Timer.ts constructor guard `[1, 0].includes(Math.sign(delay))`
(`Array.prototype.includes` uses SameValueZero, which on the values 1 and 0
agrees with `===`). -/
def signZeroOrOne (delay : JSNum) : Bool :=
  jsEq (mathSign delay) (.num 1) || jsEq (mathSign delay) (.num 0)

/-- The content of the single outstanding native timer handle: which handler
`globalThis.setTimeout` was given (the firing-tick closure or the
filler-segment closure), tagged with the requested duration. -/
inductive Pending where
  | fire : ℚ → Pending
  | filler : ℚ → Pending
deriving Repr, DecidableEq

/-- The state of one timer object (fields of the `Timer` abstract class and
of its subclasses `Timeout` / `Interval`).  `runs` and `times` belong to the
`Interval` subclass and are ignored by the `Timeout` operations.  `cbCount`
is an observation counting callback invocations; `cbThrows` models whether
the user callback throws when invoked. -/
structure TimerState where
  id : ℕ
  delay : ℚ
  timeLeft : ℚ
  running : Bool
  ran : Bool
  isAborted : Bool
  pending : Option Pending
  inRegistry : Bool
  listening : Bool
  silent : Bool
  cbThrows : Bool
  cbCount : ℕ
  runs : ℕ
  times : JSNum
  persistent : Bool
deriving Repr, DecidableEq

/-- Construction-time configuration: the options bag of Timer.ts plus the
state of the optional `AbortSignal` at construction time and the behaviour
of the supplied callback. -/
structure TimerConfig where
  signalPresent : Bool := false
  signalAborted : Bool := false
  persistent : Bool := true
  silent : Bool := false
  cbThrows : Bool := false
deriving Repr, DecidableEq

namespace Timer

/-- Timer.ts constructor (after the `strToMs` string resolution): validates
the delay, registers the timer in the `timers` map, and — when the signal is
already aborted — immediately resolves the `aborted` promise (which sets
`_isAborted = true`); otherwise subscribes to the signal's abort event.
Throws are modelled by `Except.error`. -/
def construct (delay : JSNum) (cfg : TimerConfig) (id : ℕ) :
    Except String TimerState :=
  if !(signZeroOrOne delay) then
    .error "Expected delay to be a positive number"
  else if jsEq delay .inf then
    .error "delay must not be Infinity"
  else
    match delay with
    | .num q =>
        .ok { id := id
              delay := q
              timeLeft := q
              running := false
              ran := false
              isAborted := cfg.signalAborted
              pending := none
              inRegistry := true
              listening := cfg.signalPresent && !cfg.signalAborted
              silent := cfg.silent
              cbThrows := cfg.cbThrows
              cbCount := 0
              runs := 0
              times := .inf
              persistent := cfg.persistent }
    | _ => .error "unreachable"

/-- Timer.ts `abort`: `clear()` the native handle, `_running = false`,
resolve the `aborted` promise (sets `_isAborted = true`), delete the id from
the `timers` map, drop `_timer`, remove the signal listener. -/
def abort (s : TimerState) : TimerState :=
  { s with pending := none
           running := false
           isAborted := true
           inRegistry := false
           listening := false }

end Timer

namespace Timeout

/-- Timeout.ts `#run`: if `_timeLeft <= TIMEOUT_MAX` arm a native one-shot
timer for `_timeLeft` ms with the firing-tick handler, else arm one for
`TIMEOUT_MAX` ms with the filler handler.  (The trailing
`if (!this._persistent) this.unref()` is a host keep-alive pass-through with
no effect on any field modelled here: `unref` is guarded by
`this._persistent`, which is false on that path.) -/
def runPriv (s : TimerState) : TimerState :=
  if s.timeLeft ≤ TIMEOUT_MAX then
    { s with pending := some (.fire s.timeLeft) }
  else
    { s with pending := some (.filler TIMEOUT_MAX) }

/-- Timeout.ts `run`: if already running or already aborted, only warn (no
state change); otherwise call `#run` and set `_running = true`.  Always
returns `this.id`. -/
def run (s : TimerState) : TimerState × ℕ :=
  if s.running then (s, s.id)
  else if s.isAborted then (s, s.id)
  else ({ runPriv s with running := true }, s.id)

/-- The host event loop delivers the pending native timer's expiry: execute
the handler Timeout.ts installed.  Firing tick: invoke the callback (on a
throw with `silent` unset: `abort()` and rethrow, skipping the rest of the
handler), then remove the signal listener, `_running = false`, `_ran = true`.
Filler tick: `_timeLeft -= TIMEOUT_MAX` and call `#run` again.
With no pending handle nothing happens. -/
def expire (s : TimerState) : TimerState :=
  match s.pending with
  | none => s
  | some (.filler _) =>
      runPriv { s with pending := none, timeLeft := s.timeLeft - TIMEOUT_MAX }
  | some (.fire _) =>
      let s1 : TimerState := { s with pending := none, cbCount := s.cbCount + 1 }
      if s1.cbThrows && !s1.silent then Timer.abort s1
      else { s1 with listening := false, running := false, ran := true }

end Timeout

namespace Interval

/-- Interval.ts constructor: run the `Timer` constructor, then resolve
`times` (`undefined`, modelled as `none`, becomes `Infinity`) and reject a
negative `times`; initialize `_runs = 0`. -/
def construct (delay : JSNum) (times : Option JSNum) (cfg : TimerConfig)
    (id : ℕ) : Except String TimerState :=
  match Timer.construct delay cfg id with
  | .error e => .error e
  | .ok s =>
      match times with
      | none => .ok { s with times := .inf }
      | some t =>
          if jsLt t (.num 0) then .error "times must be 0 or positive"
          else .ok { s with times := t }

/-- Interval.ts `#run`: same arming decision as Timeout.ts `#run` (the
handlers installed differ, see `Interval.expire`). -/
def runPriv (s : TimerState) : TimerState :=
  if s.timeLeft ≤ TIMEOUT_MAX then
    { s with pending := some (.fire s.timeLeft) }
  else
    { s with pending := some (.filler TIMEOUT_MAX) }

/-- Interval.ts `run`: identical policy to Timeout.ts `run`. -/
def run (s : TimerState) : TimerState × ℕ :=
  if s.running then (s, s.id)
  else if s.isAborted then (s, s.id)
  else ({ runPriv s with running := true }, s.id)

/-- The expiry of the pending native timer for an Interval.  Firing tick:
`_runs++`, invoke the callback (on a throw with `silent` unset: `abort()`
and rethrow, skipping the rest), reset `_timeLeft = delay`, then if
`_runs === times` remove the signal listener, `_running = false`,
`_ran = true`; otherwise call `#run` again.  Filler tick: as in Timeout. -/
def expire (s : TimerState) : TimerState :=
  match s.pending with
  | none => s
  | some (.filler _) =>
      runPriv { s with pending := none, timeLeft := s.timeLeft - TIMEOUT_MAX }
  | some (.fire _) =>
      let s1 : TimerState :=
        { s with pending := none, runs := s.runs + 1, cbCount := s.cbCount + 1 }
      if s1.cbThrows && !s1.silent then Timer.abort s1
      else
        let s2 : TimerState := { s1 with timeLeft := s1.delay }
        if jsEq (.num (s2.runs : ℚ)) s2.times then
          { s2 with listening := false, running := false, ran := true }
        else runPriv s2

end Interval

/-! Helper lemmas about the machine -/

/-- The arming decision common to both `#run` methods: the handler and
duration the native `setTimeout` receives for a given `_timeLeft`. -/
def armFor (t : ℚ) : Pending :=
  if t ≤ TIMEOUT_MAX then .fire t else .filler TIMEOUT_MAX

theorem timeout_runPriv_eq (s : TimerState) :
    Timeout.runPriv s = { s with pending := some (armFor s.timeLeft) } := by
  unfold Timeout.runPriv armFor
  split <;> rfl

theorem interval_runPriv_eq (s : TimerState) :
    Interval.runPriv s = { s with pending := some (armFor s.timeLeft) } := by
  unfold Interval.runPriv armFor
  split <;> rfl

theorem timeout_expire_none (s : TimerState) (h : s.pending = none) :
    Timeout.expire s = s := by
  unfold Timeout.expire
  rw [h]

theorem interval_expire_none (s : TimerState) (h : s.pending = none) :
    Interval.expire s = s := by
  unfold Interval.expire
  rw [h]

theorem timeout_expire_filler (s : TimerState)
    (h : s.pending = some (armFor s.timeLeft)) (hgt : TIMEOUT_MAX < s.timeLeft) :
    Timeout.expire s =
      Timeout.runPriv { s with pending := none, timeLeft := s.timeLeft - TIMEOUT_MAX } := by
  unfold Timeout.expire
  rw [h]
  unfold armFor
  rw [if_neg (not_le.mpr hgt)]

theorem interval_expire_filler (s : TimerState)
    (h : s.pending = some (armFor s.timeLeft)) (hgt : TIMEOUT_MAX < s.timeLeft) :
    Interval.expire s =
      Interval.runPriv { s with pending := none, timeLeft := s.timeLeft - TIMEOUT_MAX } := by
  unfold Interval.expire
  rw [h]
  unfold armFor
  rw [if_neg (not_le.mpr hgt)]

theorem timeout_expire_fire (s : TimerState)
    (h : s.pending = some (armFor s.timeLeft)) (hle : s.timeLeft ≤ TIMEOUT_MAX)
    (hcb : s.cbThrows = false) :
    Timeout.expire s =
      { s with pending := none, cbCount := s.cbCount + 1,
               listening := false, running := false, ran := true } := by
  unfold Timeout.expire
  rw [h]
  unfold armFor
  rw [if_pos hle]
  simp [hcb]

theorem interval_expire_fire_done (s : TimerState)
    (h : s.pending = some (armFor s.timeLeft)) (hle : s.timeLeft ≤ TIMEOUT_MAX)
    (hcb : s.cbThrows = false)
    (heq : jsEq (.num ((s.runs : ℚ) + 1)) s.times = true) :
    Interval.expire s =
      { s with pending := none, runs := s.runs + 1, cbCount := s.cbCount + 1,
               timeLeft := s.delay, listening := false, running := false,
               ran := true } := by
  unfold Interval.expire
  rw [h]
  unfold armFor
  rw [if_pos hle]
  simp [hcb, heq]

theorem interval_expire_fire_again (s : TimerState)
    (h : s.pending = some (armFor s.timeLeft)) (hle : s.timeLeft ≤ TIMEOUT_MAX)
    (hcb : s.cbThrows = false)
    (hne : jsEq (.num ((s.runs : ℚ) + 1)) s.times = false) :
    Interval.expire s =
      Interval.runPriv
        { s with pending := none, runs := s.runs + 1, cbCount := s.cbCount + 1,
                 timeLeft := s.delay } := by
  unfold Interval.expire
  rw [h]
  unfold armFor
  rw [if_pos hle]
  simp [hcb, hne]

/-- Iterating `Timeout.expire` through the filler segments: starting armed
with `_timeLeft = k * TIMEOUT_MAX + c` (`0 < c ≤ TIMEOUT_MAX`, or `k = 0`),
after `i ≤ k` expiries the timer is still armed with
`_timeLeft = (k - i) * TIMEOUT_MAX + c` and no other field has changed. -/
theorem timeout_chain : ∀ (k : ℕ) (c : ℚ), c ≤ TIMEOUT_MAX → (0 < c ∨ k = 0) →
    ∀ (s : TimerState), s.timeLeft = (k : ℚ) * TIMEOUT_MAX + c →
    s.pending = some (armFor s.timeLeft) →
    ∀ i, i ≤ k → Timeout.expire^[i] s =
      { s with timeLeft := ((k - i : ℕ) : ℚ) * TIMEOUT_MAX + c,
               pending := some (armFor (((k - i : ℕ) : ℚ) * TIMEOUT_MAX + c)) } := by
  intro k
  induction k with
  | zero =>
      intro c _ _ s ht hp i hi
      have hi0 : i = 0 := Nat.le_zero.mp hi
      subst hi0
      simp only [Function.iterate_zero, id_eq, Nat.sub_zero]
      have h0 : ((0 : ℕ) : ℚ) * TIMEOUT_MAX + c = s.timeLeft := by
        rw [ht]
      rw [h0, ← hp]
  | succ n ih =>
      intro c hcC hck s ht hp i hi
      have hc0 : 0 < c := by
        rcases hck with h | h
        · exact h
        · omega
      cases i with
      | zero =>
          simp only [Function.iterate_zero, id_eq, Nat.sub_zero]
          have h0 : ((n + 1 : ℕ) : ℚ) * TIMEOUT_MAX + c = s.timeLeft := by
            rw [ht]
          rw [h0, ← hp]
      | succ j =>
          have hj : j ≤ n := by omega
          have hone : (1 : ℚ) ≤ ((n + 1 : ℕ) : ℚ) := by
            exact_mod_cast Nat.one_le_iff_ne_zero.mpr (Nat.succ_ne_zero n)
          have hgt : TIMEOUT_MAX < s.timeLeft := by
            rw [ht]
            have hM : (0 : ℚ) < TIMEOUT_MAX := by norm_num [TIMEOUT_MAX]
            push_cast
            push_cast at hone
            nlinarith
          have hsub : s.timeLeft - TIMEOUT_MAX = (n : ℚ) * TIMEOUT_MAX + c := by
            rw [ht]
            push_cast
            ring
          have hmid :
              Timeout.runPriv { s with pending := none, timeLeft := s.timeLeft - TIMEOUT_MAX } =
              { s with timeLeft := (n : ℚ) * TIMEOUT_MAX + c,
                       pending := some (armFor ((n : ℚ) * TIMEOUT_MAX + c)) } := by
            rw [timeout_runPriv_eq]
            simp [hsub]
          rw [Function.iterate_succ_apply, timeout_expire_filler s hp hgt, hmid]
          have happ := ih c hcC (Or.inl hc0)
            { s with timeLeft := (n : ℚ) * TIMEOUT_MAX + c,
                     pending := some (armFor ((n : ℚ) * TIMEOUT_MAX + c)) }
            (by simp) (by simp) j hj
          rw [happ]
          simp [Nat.succ_sub_succ]

/-- The same filler-segment chain for `Interval.expire` (whose filler branch
is the same code as Timeout's). -/
theorem interval_chain : ∀ (k : ℕ) (c : ℚ), c ≤ TIMEOUT_MAX → (0 < c ∨ k = 0) →
    ∀ (s : TimerState), s.timeLeft = (k : ℚ) * TIMEOUT_MAX + c →
    s.pending = some (armFor s.timeLeft) →
    ∀ i, i ≤ k → Interval.expire^[i] s =
      { s with timeLeft := ((k - i : ℕ) : ℚ) * TIMEOUT_MAX + c,
               pending := some (armFor (((k - i : ℕ) : ℚ) * TIMEOUT_MAX + c)) } := by
  intro k
  induction k with
  | zero =>
      intro c _ _ s ht hp i hi
      have hi0 : i = 0 := Nat.le_zero.mp hi
      subst hi0
      simp only [Function.iterate_zero, id_eq, Nat.sub_zero]
      have h0 : ((0 : ℕ) : ℚ) * TIMEOUT_MAX + c = s.timeLeft := by
        rw [ht]
      rw [h0, ← hp]
  | succ n ih =>
      intro c hcC hck s ht hp i hi
      have hc0 : 0 < c := by
        rcases hck with h | h
        · exact h
        · omega
      cases i with
      | zero =>
          simp only [Function.iterate_zero, id_eq, Nat.sub_zero]
          have h0 : ((n + 1 : ℕ) : ℚ) * TIMEOUT_MAX + c = s.timeLeft := by
            rw [ht]
          rw [h0, ← hp]
      | succ j =>
          have hj : j ≤ n := by omega
          have hone : (1 : ℚ) ≤ ((n + 1 : ℕ) : ℚ) := by
            exact_mod_cast Nat.one_le_iff_ne_zero.mpr (Nat.succ_ne_zero n)
          have hgt : TIMEOUT_MAX < s.timeLeft := by
            rw [ht]
            have hM : (0 : ℚ) < TIMEOUT_MAX := by norm_num [TIMEOUT_MAX]
            push_cast
            push_cast at hone
            nlinarith
          have hsub : s.timeLeft - TIMEOUT_MAX = (n : ℚ) * TIMEOUT_MAX + c := by
            rw [ht]
            push_cast
            ring
          have hmid :
              Interval.runPriv { s with pending := none, timeLeft := s.timeLeft - TIMEOUT_MAX } =
              { s with timeLeft := (n : ℚ) * TIMEOUT_MAX + c,
                       pending := some (armFor ((n : ℚ) * TIMEOUT_MAX + c)) } := by
            rw [interval_runPriv_eq]
            simp [hsub]
          rw [Function.iterate_succ_apply, interval_expire_filler s hp hgt, hmid]
          have happ := ih c hcC (Or.inl hc0)
            { s with timeLeft := (n : ℚ) * TIMEOUT_MAX + c,
                     pending := some (armFor ((n : ℚ) * TIMEOUT_MAX + c)) }
            (by simp) (by simp) j hj
          rw [happ]
          simp [Nat.succ_sub_succ]

/-- Evaluating the Timer.ts constructor on a valid finite non-negative
delay: it succeeds and yields the documented initial state. -/
theorem timer_construct_ok (q : ℚ) (hq : 0 ≤ q) (cfg : TimerConfig) (idv : ℕ) :
    Timer.construct (.num q) cfg idv = .ok
      { id := idv, delay := q, timeLeft := q, running := false, ran := false,
        isAborted := cfg.signalAborted, pending := none, inRegistry := true,
        listening := cfg.signalPresent && !cfg.signalAborted,
        silent := cfg.silent, cbThrows := cfg.cbThrows, cbCount := 0,
        runs := 0, times := .inf, persistent := cfg.persistent } := by
  have hnl : ¬ (q < 0) := not_lt.mpr hq
  by_cases hq0 : q = 0 <;>
    simp [Timer.construct, signZeroOrOne, mathSign, jsEq, hnl, hq0]

/-- Evaluating the Interval.ts constructor on a valid finite non-negative
delay and a non-negative finite `times`. -/
theorem interval_construct_ok (q t : ℚ) (hq : 0 ≤ q) (ht : 0 ≤ t)
    (cfg : TimerConfig) (idv : ℕ) :
    Interval.construct (.num q) (some (.num t)) cfg idv = .ok
      { id := idv, delay := q, timeLeft := q, running := false, ran := false,
        isAborted := cfg.signalAborted, pending := none, inRegistry := true,
        listening := cfg.signalPresent && !cfg.signalAborted,
        silent := cfg.silent, cbThrows := cfg.cbThrows, cbCount := 0,
        runs := 0, times := .num t, persistent := cfg.persistent } := by
  unfold Interval.construct
  rw [timer_construct_ok q hq]
  simp [jsLt, not_lt.mpr ht]

/-- `run()` on a timer that is neither running nor aborted arms a native
timer for the current `_timeLeft` and sets `_running`. -/
theorem timeout_run_start (s : TimerState) (h1 : s.running = false)
    (h2 : s.isAborted = false) :
    Timeout.run s =
      ({ s with pending := some (armFor s.timeLeft), running := true }, s.id) := by
  unfold Timeout.run
  simp [h1, h2, timeout_runPriv_eq]

/-- `run()` on an Interval that is neither running nor aborted. -/
theorem interval_run_start (s : TimerState) (h1 : s.running = false)
    (h2 : s.isAborted = false) :
    Interval.run s =
      ({ s with pending := some (armFor s.timeLeft), running := true }, s.id) := by
  unfold Interval.run
  simp [h1, h2, interval_runPriv_eq]

/-- Full single-shot run trace of Timeout.ts `#run` from an armed state with
`_timeLeft = K * TIMEOUT_MAX + C`: the first `K` expiries are filler ticks
of exactly `TIMEOUT_MAX` ms each (no callback), the `(K+1)`-st armed native
timer is the firing tick of `C` ms, and its expiry invokes the callback
exactly once and ends the run. -/
theorem timeout_run_trace (K : ℕ) (C : ℚ) (hC : C ≤ TIMEOUT_MAX)
    (hck : 0 < C ∨ K = 0) (s : TimerState)
    (ht : s.timeLeft = (K : ℚ) * TIMEOUT_MAX + C)
    (hp : s.pending = some (armFor s.timeLeft)) (hcb : s.cbThrows = false) :
    (∀ i < K, (Timeout.expire^[i] s).pending = some (.filler TIMEOUT_MAX) ∧
        (Timeout.expire^[i] s).cbCount = s.cbCount) ∧
    (Timeout.expire^[K] s).pending = some (.fire C) ∧
    (Timeout.expire^[K] s).cbCount = s.cbCount ∧
    Timeout.expire^[K + 1] s =
      { s with timeLeft := C, pending := none, cbCount := s.cbCount + 1,
               listening := false, running := false, ran := true } := by
  have hchain := timeout_chain K C hC hck s ht hp
  have hKK : ((K - K : ℕ) : ℚ) * TIMEOUT_MAX + C = C := by simp
  have hfire : armFor (((K - K : ℕ) : ℚ) * TIMEOUT_MAX + C) = .fire C := by
    rw [hKK]
    unfold armFor
    rw [if_pos hC]
  refine ⟨?_, ?_, ?_, ?_⟩
  · intro i hi
    have h := hchain i (Nat.le_of_lt hi)
    have hge : 1 ≤ K - i := by omega
    have hone : (1 : ℚ) ≤ ((K - i : ℕ) : ℚ) := by exact_mod_cast hge
    have hc0 : 0 < C := by
      rcases hck with hx | hx
      · exact hx
      · omega
    have hgt : ¬ (((K - i : ℕ) : ℚ) * TIMEOUT_MAX + C ≤ TIMEOUT_MAX) := by
      have hM : (0 : ℚ) < TIMEOUT_MAX := by norm_num [TIMEOUT_MAX]
      push_cast at hone ⊢
      nlinarith
    rw [h]
    constructor
    · simp [armFor, hgt]
    · simp
  · have h := hchain K le_rfl
    rw [h, hfire]
  · have h := hchain K le_rfl
    rw [h]
  · rw [Function.iterate_succ_apply', hchain K le_rfl]
    rw [timeout_expire_fire _ (by simp [hKK]) (by simp [hKK, hC]) (by simp [hcb])]
    simp [hKK]

/-- Cast of the ℕ form of the cap to its ℚ form. -/
theorem castCAP : ((TIMEOUT_MAXN : ℕ) : ℚ) = TIMEOUT_MAX := by
  norm_num [TIMEOUT_MAXN, TIMEOUT_MAX]

/-- The state of a freshly constructed timer (delay `D`, no signal, default
options, `times` field `tms`) right after `run()` has armed it. -/
def startedTimer (idv : ℕ) (D : ℚ) (tms : JSNum) : TimerState :=
  { id := idv, delay := D, timeLeft := D, running := true, ran := false,
    isAborted := false, pending := some (armFor D), inRegistry := true,
    listening := false, silent := false, cbThrows := false, cbCount := 0,
    runs := 0, times := tms, persistent := true }

/-- Constructing a Timeout with a valid delay and default options and then
calling `run()` yields exactly the `startedTimer` state. -/
theorem timeout_run_of_construct (D : ℚ) (idv : ℕ) (s0 : TimerState)
    (hD : 0 ≤ D) (hcon : Timer.construct (.num D) {} idv = .ok s0) :
    (Timeout.run s0).1 = startedTimer idv D .inf := by
  rw [timer_construct_ok _ hD] at hcon
  injection hcon with h
  subst h
  rw [timeout_run_start _ rfl rfl]
  rfl

/-- Constructing an Interval with a valid delay, valid `times` and default
options and then calling `run()` yields exactly the `startedTimer` state. -/
theorem interval_run_of_construct (D t : ℚ) (idv : ℕ) (s0 : TimerState)
    (hD : 0 ≤ D) (ht : 0 ≤ t)
    (hcon : Interval.construct (.num D) (some (.num t)) {} idv = .ok s0) :
    (Interval.run s0).1 = startedTimer idv D (.num t) := by
  rw [interval_construct_ok _ _ hD ht] at hcon
  injection hcon with h
  subst h
  rw [interval_run_start _ rfl rfl]
  rfl

/-- The number of non-firing filler ticks Timeout.ts `#run` schedules for
`totalDelay = k * TIMEOUT_MAX + r` with `0 ≤ r < TIMEOUT_MAX`: `k` when
`r > 0`, but `k - 1` when `r = 0` (a delay that is an exact multiple of the
cap ends with a firing tick of the full cap, not with a filler). -/
def fillersFor (k r : ℕ) : ℕ := if r = 0 then k - 1 else k

/-- The duration of the final (firing) native segment for
`totalDelay = k * TIMEOUT_MAX + r`. -/
def lastSeg (k r : ℕ) : ℕ :=
  if r = 0 then (if k = 0 then 0 else TIMEOUT_MAXN) else r

/-- C1, counterexample: for `totalDelay = CAP` (that is `k = 1`, `r = 0`),
the claim's general formula announces exactly `k = 1` non-firing filler
ticks before the firing tick; but the very first native timer armed by
`run()` is already the firing tick (duration `CAP`), and the first expiry
invokes the callback — there are 0 filler ticks, not 1. -/
theorem C1_counterexample :
    (Timer.construct (.num ((1 * TIMEOUT_MAXN + 0 : ℕ) : ℚ)) {} 1).map
        (fun s => (((Timeout.run s).1).pending,
          (Timeout.expire ((Timeout.run s).1)).cbCount))
      = .ok (some (.fire TIMEOUT_MAX), 1) := by
  have ht : ((1 * TIMEOUT_MAXN + 0 : ℕ) : ℚ) = TIMEOUT_MAX := by
    norm_num [castCAP]
  rw [timer_construct_ok _ (Nat.cast_nonneg _) _ _]
  simp only [Except.map, Except.ok.injEq, Prod.mk.injEq]
  rw [timeout_run_start _ rfl rfl]
  refine ⟨?_, ?_⟩
  · show some (armFor ((1 * TIMEOUT_MAXN + 0 : ℕ) : ℚ)) = some (.fire TIMEOUT_MAX)
    rw [ht]
    unfold armFor
    rw [if_pos le_rfl]
  · rw [timeout_expire_fire _ (by simp) (by simp [castCAP]) (by simp)]

/-- C1 (amended).  Segmentation correctness for a Timeout with
`totalDelay = k*CAP + r` (`0 ≤ r < CAP`): the run loop schedules
`fillersFor k r` non-firing filler ticks of exactly `CAP` ms each — which
is `k` when `r > 0` but `k - 1` when `r = 0` and `k ≥ "1` — followed by one
firing tick of `lastSeg k r` ms, the callback is invoked exactly at the
expiry of that firing tick, and the sum of all scheduled native segment
delays equals `totalDelay`; in particular for `totalDelay = CAP`
(`k = 1, r = 0`) there are exactly 0 filler ticks and for
`totalDelay = CAP + 1` (`k = 1, r = 1`) exactly 1 filler tick. -/
theorem C1_segmentation (k r idv : ℕ) (s0 : TimerState)
    (hr : r < TIMEOUT_MAXN)
    (hcon : Timer.construct (.num ((k * TIMEOUT_MAXN + r : ℕ) : ℚ)) {} idv
      = .ok s0) :
    (∀ i < fillersFor k r,
        (Timeout.expire^[i] (Timeout.run s0).1).pending
            = some (.filler TIMEOUT_MAX) ∧
        (Timeout.expire^[i] (Timeout.run s0).1).cbCount = 0) ∧
    (Timeout.expire^[fillersFor k r] (Timeout.run s0).1).pending
        = some (.fire ((lastSeg k r : ℕ) : ℚ)) ∧
    (Timeout.expire^[fillersFor k r] (Timeout.run s0).1).cbCount = 0 ∧
    (Timeout.expire^[fillersFor k r + 1] (Timeout.run s0).1).cbCount = 1 ∧
    (Timeout.expire^[fillersFor k r + 1] (Timeout.run s0).1).ran = true ∧
    (Timeout.expire^[fillersFor k r + 1] (Timeout.run s0).1).pending = none ∧
    fillersFor k r * TIMEOUT_MAXN + lastSeg k r = k * TIMEOUT_MAXN + r ∧
    fillersFor 1 0 = 0 ∧ fillersFor 1 1 = 1 := by
  have hD0 : (0 : ℚ) ≤ ((k * TIMEOUT_MAXN + r : ℕ) : ℚ) := Nat.cast_nonneg _
  rw [timeout_run_of_construct _ _ _ hD0 hcon]
  have hsum : fillersFor k r * TIMEOUT_MAXN + lastSeg k r
      = k * TIMEOUT_MAXN + r := by
    unfold fillersFor lastSeg TIMEOUT_MAXN
    split_ifs <;> omega
  have hMpos : (0 : ℚ) < TIMEOUT_MAX := by norm_num [TIMEOUT_MAX]
  by_cases hr0 : r = 0
  · subst hr0
    by_cases hk0 : k = 0
    · subst hk0
      have hT : (startedTimer idv ((0 * TIMEOUT_MAXN + 0 : ℕ) : ℚ) .inf).timeLeft
          = (0 : ℚ) * TIMEOUT_MAX + 0 := by
        simp [startedTimer]
      have htr := timeout_run_trace 0 0 (le_of_lt hMpos) (Or.inr rfl) _ hT rfl rfl
      obtain ⟨hfill, hfireP, hfireC, hdone⟩ := htr
      refine ⟨?_, ?_, ?_, ?_, ?_, ?_, hsum, by simp [fillersFor], by simp [fillersFor]⟩
      · intro i hi
        simp [fillersFor] at hi
      · rw [show fillersFor 0 0 = 0 from rfl,
          show ((lastSeg 0 0 : ℕ) : ℚ) = 0 by simp [lastSeg]]
        exact hfireP
      · rw [show fillersFor 0 0 = 0 from rfl, hfireC]
        rfl
      · rw [show fillersFor 0 0 = 0 from rfl, hdone]
        simp [startedTimer]
      · rw [show fillersFor 0 0 = 0 from rfl, hdone]
      · rw [show fillersFor 0 0 = 0 from rfl, hdone]
    · obtain ⟨j, rfl⟩ : ∃ j, k = j + 1 := ⟨k - 1, by omega⟩
      have hT : (startedTimer idv (((j + 1) * TIMEOUT_MAXN + 0 : ℕ) : ℚ) .inf).timeLeft
          = (j : ℚ) * TIMEOUT_MAX + TIMEOUT_MAX := by
        simp only [startedTimer]
        push_cast [castCAP]
        ring
      have htr := timeout_run_trace j TIMEOUT_MAX le_rfl (Or.inl hMpos) _ hT rfl rfl
      obtain ⟨hfill, hfireP, hfireC, hdone⟩ := htr
      have hFj : fillersFor (j + 1) 0 = j := by simp [fillersFor]
      refine ⟨?_, ?_, ?_, ?_, ?_, ?_, hsum, by simp [fillersFor], by simp [fillersFor]⟩
      · intro i hi
        rw [hFj] at hi
        exact hfill i hi
      · rw [hFj]
        have hls : ((lastSeg (j + 1) 0 : ℕ) : ℚ) = TIMEOUT_MAX := by
          simp [lastSeg, castCAP]
        rw [hls]
        exact hfireP
      · rw [hFj]
        simpa [startedTimer] using hfireC
      · rw [hFj, hdone]
        simp [startedTimer]
      · rw [hFj, hdone]
      · rw [hFj, hdone]
  · have hrpos : 0 < r := Nat.pos_of_ne_zero hr0
    have hT : (startedTimer idv ((k * TIMEOUT_MAXN + r : ℕ) : ℚ) .inf).timeLeft
        = (k : ℚ) * TIMEOUT_MAX + (r : ℚ) := by
      simp only [startedTimer]
      push_cast [castCAP]
      ring
    have hrC : (r : ℚ) ≤ TIMEOUT_MAX := by
      rw [← castCAP]
      exact_mod_cast le_of_lt hr
    have htr := timeout_run_trace k (r : ℚ) hrC
      (Or.inl (by exact_mod_cast hrpos)) _ hT rfl rfl
    obtain ⟨hfill, hfireP, hfireC, hdone⟩ := htr
    have hFk : fillersFor k r = k := by simp [fillersFor, hr0]
    refine ⟨?_, ?_, ?_, ?_, ?_, ?_, hsum, by simp [fillersFor], by simp [fillersFor]⟩
    · intro i hi
      rw [hFk] at hi
      exact hfill i hi
    · rw [hFk]
      have hls : ((lastSeg k r : ℕ) : ℚ) = (r : ℚ) := by simp [lastSeg, hr0]
      rw [hls]
      exact hfireP
    · rw [hFk]
      simpa [startedTimer] using hfireC
    · rw [hFk, hdone]
      simp [startedTimer]
    · rw [hFk, hdone]
    · rw [hFk, hdone]

/-- The state of a started Interval at the beginning of its `(m+1)`-st
repeat cycle: `m` completed runs, `_timeLeft` reset to the delay, a fresh
native timer armed. -/
def cycleState (idv : ℕ) (D : ℚ) (tms : JSNum) (m : ℕ) : TimerState :=
  { startedTimer idv D tms with runs := m, cbCount := m }

/-- The state of an Interval that has completed all of its `times` runs. -/
def doneState (idv : ℕ) (D : ℚ) (tms : JSNum) (m : ℕ) : TimerState :=
  { startedTimer idv D tms with
      runs := m
      cbCount := m
      pending := none
      listening := false
      running := false
      ran := true }

/-- One full repeat cycle of Interval.ts `#run`: from an armed cycle-start
state with `delay = K * TIMEOUT_MAX + C`, after `K` filler expiries and the
one firing expiry, either the interval re-arms for the next cycle (when
`_runs === times` fails) or finishes (`_ran = true`, nothing armed). -/
theorem interval_cycle (K : ℕ) (C : ℚ) (hC : C ≤ TIMEOUT_MAX)
    (hck : 0 < C ∨ K = 0) (s : TimerState)
    (hd : s.delay = (K : ℚ) * TIMEOUT_MAX + C) (ht : s.timeLeft = s.delay)
    (hp : s.pending = some (armFor s.timeLeft)) (hcb : s.cbThrows = false) :
    (jsEq (.num ((s.runs : ℚ) + 1)) s.times = false →
      Interval.expire^[K + 1] s =
        { s with runs := s.runs + 1, cbCount := s.cbCount + 1,
                 timeLeft := s.delay, pending := some (armFor s.delay) }) ∧
    (jsEq (.num ((s.runs : ℚ) + 1)) s.times = true →
      Interval.expire^[K + 1] s =
        { s with runs := s.runs + 1, cbCount := s.cbCount + 1,
                 timeLeft := s.delay, pending := none, listening := false,
                 running := false, ran := true }) := by
  have hchain := interval_chain K C hC hck s (by rw [ht, hd]) hp K le_rfl
  have hKK : ((K - K : ℕ) : ℚ) * TIMEOUT_MAX + C = C := by simp
  rw [Function.iterate_succ_apply', hchain]
  constructor
  · intro hne
    rw [interval_expire_fire_again _ (by simp [hKK]) (by simp [hKK, hC])
      (by simp [hcb]) (by simpa using hne)]
    rw [interval_runPriv_eq]
  · intro heq
    rw [interval_expire_fire_done _ (by simp [hKK]) (by simp [hKK, hC])
      (by simp [hcb]) (by simpa using heq)]

/-- After all runs have completed, nothing is armed, so further expiry
events change nothing. -/
theorem interval_done_absorbing (idv : ℕ) (D : ℚ) (tms : JSNum) (m : ℕ) :
    ∀ j, Interval.expire^[j] (doneState idv D tms m) = doneState idv D tms m := by
  intro j
  induction j with
  | zero => rfl
  | succ n ihn =>
      rw [Function.iterate_succ_apply', ihn, interval_expire_none _ rfl]

/-- Cycle-level trace of an Interval with a finite repeat count `N ≥ 1` and
delay `K * TIMEOUT_MAX + C`: after `m ≤ N` complete repeat cycles (of
`K + 1` native ticks each) the timer is at the start of cycle `m + 1` with
`m` callback invocations — or, once `m = N`, in the completed state. -/
theorem interval_trace_num (K : ℕ) (C : ℚ) (hC : C ≤ TIMEOUT_MAX)
    (hck : 0 < C ∨ K = 0) (idv N : ℕ) (hN : 1 ≤ N) :
    ∀ m : ℕ, m ≤ N →
      Interval.expire^[m * (K + 1)]
          (startedTimer idv ((K : ℚ) * TIMEOUT_MAX + C) (.num (N : ℚ)))
        = if m < N then
            cycleState idv ((K : ℚ) * TIMEOUT_MAX + C) (.num (N : ℚ)) m
          else doneState idv ((K : ℚ) * TIMEOUT_MAX + C) (.num (N : ℚ)) N := by
  intro m
  induction m with
  | zero =>
      intro _
      rw [if_pos (show 0 < N by omega), Nat.zero_mul]
      rfl
  | succ n ihn =>
      intro hn1
      have hnN : n < N := by omega
      have hprev := ihn (by omega)
      rw [if_pos hnN] at hprev
      have hcyc := interval_cycle K C hC hck
        (cycleState idv ((K : ℚ) * TIMEOUT_MAX + C) (.num (N : ℚ)) n)
        rfl rfl rfl rfl
      have hsplit : (n + 1) * (K + 1) = (K + 1) + n * (K + 1) := by ring
      rw [hsplit, Function.iterate_add_apply, hprev]
      by_cases hend : n + 1 = N
      · have hb : jsEq (.num ((n : ℚ) + 1)) (.num (N : ℚ)) = true := by
          simp only [jsEq, decide_eq_true_eq]
          exact_mod_cast hend
        rw [hcyc.2 (by simpa [cycleState, startedTimer] using hb)]
        rw [if_neg (by omega)]
        simp [cycleState, doneState, startedTimer, hend]
      · have hb : jsEq (.num ((n : ℚ) + 1)) (.num (N : ℚ)) = false := by
          simp only [jsEq, decide_eq_false_iff_not]
          intro h
          exact hend (by exact_mod_cast h)
        rw [hcyc.1 (by simpa [cycleState, startedTimer] using hb)]
        rw [if_pos (by omega)]
        simp [cycleState, startedTimer]

/-- C2: Repeat-count exactness.  For an Interval constructed with a finite
`times = N ≥ 1` and any delay `K * TIMEOUT_MAX + C` (one repeat cycle takes
`K + 1` native ticks: `K` fillers and one firing tick), after any number
`j` of elapsed native ticks the number of callback invocations and the
`_runs` counter both equal `min N (j / (K+1))` — so the callback has fired
exactly `N` times once enough ticks have elapsed and never fires an
`(N+1)`-st time — the `ran` flag is true exactly from the Nth invocation
on, and after the Nth invocation no native timer is armed any more. -/
theorem C2_repeat_exact (N K idv : ℕ) (C : ℚ) (s0 : TimerState)
    (hN : 1 ≤ N) (hC0 : 0 ≤ C) (hC : C ≤ TIMEOUT_MAX) (hck : 0 < C ∨ K = 0)
    (hcon : Interval.construct (.num ((K : ℚ) * TIMEOUT_MAX + C))
      (some (.num (N : ℚ))) {} idv = .ok s0) :
    ∀ j : ℕ,
      (Interval.expire^[j] (Interval.run s0).1).cbCount = min N (j / (K + 1)) ∧
      (Interval.expire^[j] (Interval.run s0).1).runs = min N (j / (K + 1)) ∧
      ((Interval.expire^[j] (Interval.run s0).1).ran = true ↔ N ≤ j / (K + 1)) ∧
      (N * (K + 1) ≤ j →
        (Interval.expire^[j] (Interval.run s0).1).pending = none) := by
  have hD0 : (0 : ℚ) ≤ (K : ℚ) * TIMEOUT_MAX + C := by
    have hK0 : (0 : ℚ) ≤ (K : ℚ) := Nat.cast_nonneg K
    have hM : (0 : ℚ) ≤ TIMEOUT_MAX := by norm_num [TIMEOUT_MAX]
    have := mul_nonneg hK0 hM
    linarith
  rw [interval_run_of_construct _ _ _ _ hD0 (Nat.cast_nonneg N) hcon]
  intro j
  have hLpos : 0 < K + 1 := Nat.succ_pos K
  have hqt : j % (K + 1) + (j / (K + 1)) * (K + 1) = j := Nat.mod_add_div' j (K + 1)
  have htK : j % (K + 1) ≤ K := by
    have := Nat.mod_lt j hLpos
    omega
  by_cases hq : j / (K + 1) < N
  · have htr := interval_trace_num K C hC hck idv N hN (j / (K + 1)) (le_of_lt hq)
    rw [if_pos hq] at htr
    have hchain := interval_chain K C hC hck
      (cycleState idv ((K : ℚ) * TIMEOUT_MAX + C) (.num (N : ℚ)) (j / (K + 1)))
      rfl rfl (j % (K + 1)) htK
    have hstate :
        Interval.expire^[j] (startedTimer idv ((K : ℚ) * TIMEOUT_MAX + C) (.num (N : ℚ)))
          = { cycleState idv ((K : ℚ) * TIMEOUT_MAX + C) (.num (N : ℚ)) (j / (K + 1)) with
                timeLeft := ((K - j % (K + 1) : ℕ) : ℚ) * TIMEOUT_MAX + C
                pending :=
                  some (armFor (((K - j % (K + 1) : ℕ) : ℚ) * TIMEOUT_MAX + C)) } := by
      conv_lhs => rw [← hqt]
      rw [Function.iterate_add_apply, htr, hchain]
    rw [hstate]
    refine ⟨?_, ?_, ?_, ?_⟩
    · simp [cycleState, startedTimer, Nat.min_eq_right (le_of_lt hq)]
    · simp [cycleState, startedTimer, Nat.min_eq_right (le_of_lt hq)]
    · simp only [cycleState, startedTimer]
      simp
      omega
    · intro hle
      have : N ≤ j / (K + 1) := (Nat.le_div_iff_mul_le hLpos).mpr hle
      omega
  · have hNL : N * (K + 1) ≤ j := (Nat.le_div_iff_mul_le hLpos).mp (by omega)
    have hsplit : j = (j - N * (K + 1)) + N * (K + 1) := by omega
    have htr := interval_trace_num K C hC hck idv N hN N le_rfl
    rw [if_neg (lt_irrefl N)] at htr
    have hstate :
        Interval.expire^[j] (startedTimer idv ((K : ℚ) * TIMEOUT_MAX + C) (.num (N : ℚ)))
          = doneState idv ((K : ℚ) * TIMEOUT_MAX + C) (.num (N : ℚ)) N := by
      conv_lhs => rw [hsplit]
      rw [Function.iterate_add_apply, htr, interval_done_absorbing]
    rw [hstate]
    refine ⟨?_, ?_, ?_, fun _ => ?_⟩
    · simp [doneState, startedTimer, Nat.min_eq_left (by omega : N ≤ j / (K + 1))]
    · simp [doneState, startedTimer, Nat.min_eq_left (by omega : N ≤ j / (K + 1))]
    · simp only [doneState, startedTimer]
      simp
      omega
    · rfl

/-- The operations a caller (or the host event loop) can perform on a timer
after construction: `run()`, expiry of the pending native timer, and
`abort()` (the latter also covers the signal's abort event and
`clearTimeout` / `clearInterval` by id, both of which just call `abort`). -/
inductive TimerOp where
  | run : TimerOp
  | expire : TimerOp
  | abort : TimerOp
deriving Repr, DecidableEq

/-- Apply one operation to a Timeout. -/
def Timeout.applyOp (o : TimerOp) (s : TimerState) : TimerState :=
  match o with
  | .run => (Timeout.run s).1
  | .expire => Timeout.expire s
  | .abort => Timer.abort s

/-- Apply a sequence of operations to a Timeout, oldest first. -/
def Timeout.applyOps (l : List TimerOp) (s : TimerState) : TimerState :=
  l.foldl (fun s o => Timeout.applyOp o s) s

/-- Apply one operation to an Interval. -/
def Interval.applyOp (o : TimerOp) (s : TimerState) : TimerState :=
  match o with
  | .run => (Interval.run s).1
  | .expire => Interval.expire s
  | .abort => Timer.abort s

/-- Apply a sequence of operations to an Interval, oldest first. -/
def Interval.applyOps (l : List TimerOp) (s : TimerState) : TimerState :=
  l.foldl (fun s o => Interval.applyOp o s) s

/-- A timer that is aborted, with nothing armed and not running.  This is
the state `abort()` leaves behind, and (as proved below) no operation leaves
it or invokes the callback from it. -/
def Halted (s : TimerState) : Prop :=
  s.pending = none ∧ s.isAborted = true ∧ s.running = false

theorem timeout_applyOp_halted (o : TimerOp) (s : TimerState) (h : Halted s) :
    Halted (Timeout.applyOp o s) ∧ (Timeout.applyOp o s).cbCount = s.cbCount := by
  obtain ⟨hp, ha, hr⟩ := h
  cases o with
  | run =>
      unfold Timeout.applyOp Timeout.run
      rw [hr, ha]
      exact ⟨⟨hp, ha, hr⟩, rfl⟩
  | expire =>
      unfold Timeout.applyOp
      rw [timeout_expire_none s hp]
      exact ⟨⟨hp, ha, hr⟩, rfl⟩
  | abort =>
      unfold Timeout.applyOp Timer.abort
      exact ⟨⟨rfl, rfl, rfl⟩, rfl⟩

theorem interval_applyOp_halted (o : TimerOp) (s : TimerState) (h : Halted s) :
    Halted (Interval.applyOp o s) ∧ (Interval.applyOp o s).cbCount = s.cbCount := by
  obtain ⟨hp, ha, hr⟩ := h
  cases o with
  | run =>
      unfold Interval.applyOp Interval.run
      rw [hr, ha]
      exact ⟨⟨hp, ha, hr⟩, rfl⟩
  | expire =>
      unfold Interval.applyOp
      rw [interval_expire_none s hp]
      exact ⟨⟨hp, ha, hr⟩, rfl⟩
  | abort =>
      unfold Interval.applyOp Timer.abort
      exact ⟨⟨rfl, rfl, rfl⟩, rfl⟩

theorem timeout_applyOps_halted (l : List TimerOp) :
    ∀ s : TimerState, Halted s →
      Halted (Timeout.applyOps l s) ∧ (Timeout.applyOps l s).cbCount = s.cbCount := by
  induction l with
  | nil => exact fun s h => ⟨h, rfl⟩
  | cons o rest ih =>
      intro s h
      have h1 := timeout_applyOp_halted o s h
      have h2 := ih (Timeout.applyOp o s) h1.1
      exact ⟨h2.1, h2.2.trans h1.2⟩

theorem interval_applyOps_halted (l : List TimerOp) :
    ∀ s : TimerState, Halted s →
      Halted (Interval.applyOps l s) ∧ (Interval.applyOps l s).cbCount = s.cbCount := by
  induction l with
  | nil => exact fun s h => ⟨h, rfl⟩
  | cons o rest ih =>
      intro s h
      have h1 := interval_applyOp_halted o s h
      have h2 := ih (Interval.applyOp o s) h1.1
      exact ⟨h2.1, h2.2.trans h1.2⟩

theorem timer_abort_halted (s : TimerState) : Halted (Timer.abort s) :=
  ⟨rfl, rfl, rfl⟩

/-- C3: After `abort()` returns, the callback never fires again.  `abort`
clears the pending native handle and marks the timer aborted, and from that
state no sequence of subsequent operations (`run()`, native timer expiry,
further aborts — whether the timer is a Timeout or an Interval) ever
invokes the callback again or arms a new native timer. -/
theorem C3_abort_terminal (s : TimerState) (l : List TimerOp) :
    (Timer.abort s).pending = none ∧
    (Timer.abort s).isAborted = true ∧
    (Timeout.applyOps l (Timer.abort s)).cbCount = s.cbCount ∧
    (Timeout.applyOps l (Timer.abort s)).pending = none ∧
    (Interval.applyOps l (Timer.abort s)).cbCount = s.cbCount ∧
    (Interval.applyOps l (Timer.abort s)).pending = none := by
  have hto := timeout_applyOps_halted l (Timer.abort s) (timer_abort_halted s)
  have hiv := interval_applyOps_halted l (Timer.abort s) (timer_abort_halted s)
  exact ⟨rfl, rfl, hto.2, hto.1.1, hiv.2, hiv.1.1⟩

/-- C4, counterexample: a timer constructed with an already-aborted signal
IS still present in the Registry (the `timers` map): the constructor
registers the timer before checking `signal.aborted`, and the pre-aborted
branch only resolves the `aborted` promise — it never deletes the entry.
The claim's "not present in (or immediately removed from) the Registry" is
false. -/
theorem C4_counterexample :
    (Timer.construct (.num 100) { signalPresent := true, signalAborted := true } 1).map
        (fun s => (s.isAborted, s.inRegistry)) = .ok (true, true) := by
  rw [timer_construct_ok 100 (by norm_num)]
  rfl

/-- C4 (amended): a timer (Timeout or Interval) constructed with an
already-aborted AbortSignal is immediately in the aborted state, `run()` on
it is a warn-and-ignore no-op, and no sequence of subsequent operations ever
invokes its callback; however the timer REMAINS in the Registry — the entry
is only deleted when `abort()` is actually called on it. -/
theorem C4_prefired (d t : ℚ) (idv : ℕ) (cfg : TimerConfig)
    (s0 s1 : TimerState) (l : List TimerOp)
    (hab : cfg.signalAborted = true) (hd : 0 ≤ d) (ht : 0 ≤ t)
    (hconT : Timer.construct (.num d) cfg idv = .ok s0)
    (hconI : Interval.construct (.num d) (some (.num t)) cfg idv = .ok s1) :
    s0.isAborted = true ∧ s0.inRegistry = true ∧
    (Timeout.run s0).1 = s0 ∧
    (Timeout.applyOps l s0).cbCount = 0 ∧
    s1.isAborted = true ∧ s1.inRegistry = true ∧
    (Interval.run s1).1 = s1 ∧
    (Interval.applyOps l s1).cbCount = 0 := by
  rw [timer_construct_ok _ hd] at hconT
  injection hconT with h0
  subst h0
  rw [interval_construct_ok _ _ hd ht] at hconI
  injection hconI with h1
  subst h1
  refine ⟨hab, rfl, ?_, (timeout_applyOps_halted l _ ⟨rfl, hab, rfl⟩).2, hab,
    rfl, ?_, (interval_applyOps_halted l _ ⟨rfl, hab, rfl⟩).2⟩
  · unfold Timeout.run
    simp [hab]
  · unfold Interval.run
    simp [hab]

/-- C5, counterexample: an Interval constructed with `times = 0` does fire.
After `run()` and one tick the callback has been invoked once
(`_runs = 1`), and — since `_runs === times` can never hold for
`times = 0` — the interval immediately re-arms (it will fire forever).
The claim's "the callback never actually fires even though armed" is
false. -/
theorem C5_counterexample :
    (Interval.construct (.num 100) (some (.num 0)) {} 1).map
        (fun s => ((Interval.expire ((Interval.run s).1)).cbCount,
          (Interval.expire ((Interval.run s).1)).runs,
          (Interval.expire ((Interval.run s).1)).pending))
      = .ok (1, 1, some (.fire 100)) := by
  rw [interval_construct_ok 100 0 (by norm_num) le_rfl]
  rfl

/-- Cycle-level trace of an Interval whose `times` value can never equal
`_runs` (e.g. `times = 0`, since `_runs` is at least 1 from the first firing
on, or `times = Infinity`): every cycle ends with a re-arm, forever. -/
theorem interval_trace_noend (K : ℕ) (C : ℚ) (hC : C ≤ TIMEOUT_MAX)
    (hck : 0 < C ∨ K = 0) (idv : ℕ) (tms : JSNum)
    (hnoend : ∀ m : ℕ, jsEq (.num ((m : ℚ) + 1)) tms = false) :
    ∀ m : ℕ, Interval.expire^[m * (K + 1)]
        (startedTimer idv ((K : ℚ) * TIMEOUT_MAX + C) tms)
      = cycleState idv ((K : ℚ) * TIMEOUT_MAX + C) tms m := by
  intro m
  induction m with
  | zero =>
      rw [Nat.zero_mul]
      rfl
  | succ n ihn =>
      have hcyc := interval_cycle K C hC hck
        (cycleState idv ((K : ℚ) * TIMEOUT_MAX + C) tms n) rfl rfl rfl rfl
      have hsplit : (n + 1) * (K + 1) = (K + 1) + n * (K + 1) := by ring
      rw [hsplit, Function.iterate_add_apply, ihn]
      rw [hcyc.1 (by simpa [cycleState, startedTimer] using hnoend n)]
      simp [cycleState, startedTimer]

/-- C5 (amended): constructing an Interval with `times = 0` succeeds (0 is a
legal value), but — contrary to the claim — the callback does fire: since
`_runs === times` compares the incremented run counter (≥ 1) with 0, the
stop condition never holds, so the interval behaves like an unbounded one:
after any `j` elapsed native ticks the callback has been invoked
`j / (K+1)` times, `ran` never becomes true, and a native timer is always
armed. -/
theorem C5_zero_times (K idv : ℕ) (C : ℚ) (s0 : TimerState)
    (hC0 : 0 ≤ C) (hC : C ≤ TIMEOUT_MAX) (hck : 0 < C ∨ K = 0)
    (hcon : Interval.construct (.num ((K : ℚ) * TIMEOUT_MAX + C))
      (some (.num 0)) {} idv = .ok s0) :
    (∀ q : ℚ, 0 ≤ q → ∃ s', Interval.construct (.num q) (some (.num 0)) {} idv
      = .ok s') ∧
    ∀ j : ℕ,
      (Interval.expire^[j] (Interval.run s0).1).cbCount = j / (K + 1) ∧
      (Interval.expire^[j] (Interval.run s0).1).runs = j / (K + 1) ∧
      (Interval.expire^[j] (Interval.run s0).1).ran = false ∧
      (Interval.expire^[j] (Interval.run s0).1).pending ≠ none := by
  have hD0 : (0 : ℚ) ≤ (K : ℚ) * TIMEOUT_MAX + C := by
    have hK0 : (0 : ℚ) ≤ (K : ℚ) := Nat.cast_nonneg K
    have hM : (0 : ℚ) ≤ TIMEOUT_MAX := by norm_num [TIMEOUT_MAX]
    have := mul_nonneg hK0 hM
    linarith
  refine ⟨fun q hq => ⟨_, interval_construct_ok q 0 hq le_rfl {} idv⟩, ?_⟩
  rw [interval_run_of_construct _ _ _ _ hD0 le_rfl hcon]
  have hnoend : ∀ m : ℕ, jsEq (.num ((m : ℚ) + 1)) (JSNum.num 0) = false := by
    intro m
    simp only [jsEq, decide_eq_false_iff_not]
    intro hEq
    have hm : (0 : ℚ) ≤ (m : ℚ) := Nat.cast_nonneg m
    linarith
  intro j
  have hLpos : 0 < K + 1 := Nat.succ_pos K
  have hqt : j % (K + 1) + (j / (K + 1)) * (K + 1) = j := Nat.mod_add_div' j (K + 1)
  have htK : j % (K + 1) ≤ K := by
    have := Nat.mod_lt j hLpos
    omega
  have htr := interval_trace_noend K C hC hck idv (.num 0) hnoend (j / (K + 1))
  have hchain := interval_chain K C hC hck
    (cycleState idv ((K : ℚ) * TIMEOUT_MAX + C) (.num 0) (j / (K + 1)))
    rfl rfl (j % (K + 1)) htK
  have hstate :
      Interval.expire^[j] (startedTimer idv ((K : ℚ) * TIMEOUT_MAX + C) (.num 0))
        = { cycleState idv ((K : ℚ) * TIMEOUT_MAX + C) (.num 0) (j / (K + 1)) with
              timeLeft := ((K - j % (K + 1) : ℕ) : ℚ) * TIMEOUT_MAX + C
              pending :=
                some (armFor (((K - j % (K + 1) : ℕ) : ℚ) * TIMEOUT_MAX + C)) } := by
    conv_lhs => rw [← hqt]
    rw [Function.iterate_add_apply, htr, hchain]
  rw [hstate]
  refine ⟨?_, ?_, ?_, ?_⟩
  · simp [cycleState, startedTimer]
  · simp [cycleState, startedTimer]
  · simp [cycleState, startedTimer]
  · simp

/-- C6, counterexample: after a single-shot Timeout completes naturally
(`ran = true`), the Registry still contains its id — the firing-tick
handler never deletes the `timers` entry; only `abort()` does.  And the
subsequent `abort()` is not observation-free: it flips `isAborted` to true
(resolving the `aborted` promise) and removes the Registry entry. -/
theorem C6_counterexample :
    (Timer.construct (.num 100) {} 1).map
        (fun s =>
          ((Timeout.expire ((Timeout.run s).1)).ran,
            (Timeout.expire ((Timeout.run s).1)).inRegistry,
            (Timer.abort (Timeout.expire ((Timeout.run s).1))).isAborted,
            (Timer.abort (Timeout.expire ((Timeout.run s).1))).inRegistry))
      = .ok (true, true, true, false) := by
  rw [timer_construct_ok 100 (by norm_num)]
  rfl

/-- C6 (amended): once a single-shot Timeout's callback invocation has
completed naturally, the timer is done (`ran = true`, nothing armed, one
invocation) but the Registry STILL contains its id.  A subsequent `abort()`
is safe — the callback can never fire again, before or after it — but it is
not a pure no-op: it removes the Registry entry and marks the timer aborted
(resolving the `aborted` promise). -/
theorem C6_completion (d : ℚ) (idv : ℕ) (s0 : TimerState) (l : List TimerOp)
    (hd0 : 0 ≤ d) (hdC : d ≤ TIMEOUT_MAX)
    (hcon : Timer.construct (.num d) {} idv = .ok s0) :
    (Timeout.expire ((Timeout.run s0).1)).ran = true ∧
    (Timeout.expire ((Timeout.run s0).1)).cbCount = 1 ∧
    (Timeout.expire ((Timeout.run s0).1)).running = false ∧
    (Timeout.expire ((Timeout.run s0).1)).pending = none ∧
    (Timeout.expire ((Timeout.run s0).1)).inRegistry = true ∧
    (Timer.abort (Timeout.expire ((Timeout.run s0).1))).cbCount = 1 ∧
    (Timer.abort (Timeout.expire ((Timeout.run s0).1))).inRegistry = false ∧
    (Timer.abort (Timeout.expire ((Timeout.run s0).1))).isAborted = true ∧
    (Timeout.applyOps l (Timer.abort (Timeout.expire ((Timeout.run s0).1)))).cbCount
      = 1 := by
  rw [timeout_run_of_construct _ _ _ hd0 hcon,
    timeout_expire_fire (startedTimer idv d .inf) rfl hdC rfl]
  exact ⟨rfl, rfl, rfl, rfl, rfl, rfl, rfl, rfl,
    ((timeout_applyOps_halted l _ (timer_abort_halted _)).2).trans rfl⟩

/-- C7, counterexample: a completed Timeout (callback fired, `ran = true`)
is re-armed by a subsequent `run()` call, and its callback fires a second
time — the guard in `run()` only checks `_running` and `_isAborted`, never
`_ran`, so the CompletedAllRuns state is not terminal under `run()`. -/
theorem C7_counterexample :
    (Timer.construct (.num 100) {} 1).map
        (fun s =>
          ((Timeout.expire ((Timeout.run s).1)).ran,
            (Timeout.expire ((Timeout.run (Timeout.expire ((Timeout.run s).1))).1)).cbCount))
      = .ok (true, 2) := by
  rw [timer_construct_ok 100 (by norm_num)]
  rfl

/-- C7 (amended): the Aborted state is terminal — after `abort()`, no
sequence of operations changes `isAborted` back or invokes the callback
again.  The CompletedAllRuns state however is NOT terminal: `run()` on any
timer that is neither running nor aborted (in particular a Timeout with
`ran = true`) arms a fresh native timer and sets `_running` again, so the
callback can fire again. -/
theorem C7_terminal_states (s c : TimerState) (l : List TimerOp)
    (hc1 : c.running = false) (hc2 : c.isAborted = false) :
    (Timeout.applyOps l (Timer.abort s)).isAborted = true ∧
    (Timeout.applyOps l (Timer.abort s)).cbCount = s.cbCount ∧
    (Interval.applyOps l (Timer.abort s)).isAborted = true ∧
    (Interval.applyOps l (Timer.abort s)).cbCount = s.cbCount ∧
    (Timeout.run c).1.running = true ∧
    (Timeout.run c).1.pending = some (armFor c.timeLeft) ∧
    (Timeout.run c).1.ran = c.ran := by
  have hto := timeout_applyOps_halted l _ (timer_abort_halted s)
  have hiv := interval_applyOps_halted l _ (timer_abort_halted s)
  rw [timeout_run_start c hc1 hc2]
  exact ⟨hto.1.2.1, hto.2, hiv.1.2.1, hiv.2, rfl, rfl, rfl⟩

/-- C8: construction-time validation is a synchronous throw.  A negative,
NaN or (±)Infinity delay makes the Timer constructor throw, and a negative
`times` makes the Interval constructor throw; in every such case the
constructor returns an error and no timer state exists, so nothing is ever
armed. -/
theorem C8_validation (q t : ℚ) (cfg : TimerConfig) (idv : ℕ)
    (tms : Option JSNum) (hq : q < 0) (ht : t < 0) :
    (∃ e, Timer.construct (.num q) cfg idv = .error e) ∧
    (∃ e, Timer.construct .nan cfg idv = .error e) ∧
    (∃ e, Timer.construct .inf cfg idv = .error e) ∧
    (∃ e, Timer.construct .ninf cfg idv = .error e) ∧
    (∃ e, Interval.construct (.num q) tms cfg idv = .error e) ∧
    (∀ d : ℚ, 0 ≤ d →
      ∃ e, Interval.construct (.num d) (some (.num t)) cfg idv = .error e) := by
  have hsign : mathSign (.num q) = .num (-1) := by
    show JSNum.num (if q < 0 then (-1 : ℚ) else if q = 0 then 0 else 1)
      = JSNum.num (-1)
    rw [if_pos hq]
  have hso : signZeroOrOne (.num q) = false := by
    unfold signZeroOrOne
    rw [hsign]
    simp [jsEq]
    norm_num
  have hqT : Timer.construct (.num q) cfg idv
      = .error "Expected delay to be a positive number" := by
    unfold Timer.construct
    rw [hso]
    rfl
  refine ⟨⟨_, hqT⟩, ⟨_, rfl⟩, ⟨_, rfl⟩, ⟨_, rfl⟩,
    ⟨"Expected delay to be a positive number", ?_⟩,
    fun d hd => ⟨"times must be 0 or positive", ?_⟩⟩
  · unfold Interval.construct
    rw [hqT]
  · unfold Interval.construct
    rw [timer_construct_ok d hd]
    simp [jsLt, ht]

/-- C10: `run()` always returns the timer's id — both for Timeout and for
Interval — and when the call is ignored because the timer is already
running or already aborted, the state is completely unchanged (the warning
branches have no other effect). -/
theorem C10_run_returns_id (s : TimerState) :
    (Timeout.run s).2 = s.id ∧ (Interval.run s).2 = s.id ∧
    (s.running = true → (Timeout.run s).1 = s ∧ (Interval.run s).1 = s) ∧
    (s.isAborted = true → (Timeout.run s).1 = s ∧ (Interval.run s).1 = s) := by
  refine ⟨?_, ?_, fun h => ⟨?_, ?_⟩, fun h => ⟨?_, ?_⟩⟩
  · unfold Timeout.run
    split_ifs <;> rfl
  · unfold Interval.run
    split_ifs <;> rfl
  · simp [Timeout.run, h]
  · simp [Interval.run, h]
  · unfold Timeout.run
    split_ifs <;> rfl
  · unfold Interval.run
    split_ifs <;> rfl

/-! The duration-string parser of util.ts (`strToMs`).  The regex
`/([\d.]+)\s*?(milliseconds?|ms|seconds?|sec|s|minutes?|min|m|hours?|h|days?|d)/gi`
is embedded by an explicit backtracking matcher with JavaScript regex
semantics: the engine attempts a match at each index from left to right;
`[\d.]+` is greedy (longest first, with backtracking), `\s*?` is lazy
(shortest first), the unit alternation is ordered with `X?` greedy, and
matching is case-insensitive while the captured text keeps its case.
`parseFloat` and the `epochs` record lookup are embedded exactly; a NaN
result (unparsable quantity, or an `epochs` lookup miss on a
differently-cased key) is modelled as `none`. -/

/-- The characters matched by the class `[\d.]`. -/
def isQuantChar (c : Char) : Bool := c.isDigit || c = '.'

/-- JavaScript `\s` (the whitespace characters relevant here). -/
def isJsSpace (c : Char) : Bool :=
  c = ' ' || c = '\t' || c = '\n' || c = '\r' ||
    c = Char.ofNat 11 || c = Char.ofNat 12

/-- The unit alternation of the regex, in source order, with each optional
`s?` expanded greedily (longer literal first). -/
def unitAlts : List String :=
  ["milliseconds", "millisecond", "ms", "seconds", "second", "sec", "s",
   "minutes", "minute", "min", "m", "hours", "hour", "h", "days", "day", "d"]

/-- Case-insensitive literal match of the first alternation branch that
matches a prefix of `l`; returns the matched text with original case. -/
def matchUnit (l : List Char) : Option (List Char) :=
  unitAlts.findSome? fun u =>
    let ul := u.toList
    let pre := l.take ul.length
    if pre.length = ul.length && (pre.map Char.toLower = ul.map Char.toLower)
    then some pre else none

/-- Attempt the whole regex at the current position.  Returns the captured
quantity text, the captured unit text, and the total length consumed. -/
def tryAt (l : List Char) : Option (List Char × List Char × ℕ) :=
  let q := l.takeWhile isQuantChar
  if q.isEmpty then none
  else
    (List.range q.length).findSome? fun back =>
      let qlen := q.length - back
      let rest := l.drop qlen
      let ws := rest.takeWhile isJsSpace
      (List.range (ws.length + 1)).findSome? fun w =>
        match matchUnit (rest.drop w) with
        | some u => some (l.take qlen, u, qlen + w + u.length)
        | none => none

/-- The match loop of `regexp.exec` under the `g` flag: find the leftmost
match from the current index, consume it, repeat; a failed attempt advances
by one character. -/
def scanMatches : ℕ → List Char → List (List Char × List Char)
  | 0, _ => []
  | _, [] => []
  | fuel + 1, c :: rest =>
      match tryAt (c :: rest) with
      | some (q, u, len) => (q, u) :: scanMatches fuel (List.drop len (c :: rest))
      | none => scanMatches fuel rest

/-- Value of a digit run, as a natural number. -/
def digitsNat (l : List Char) : ℕ :=
  l.foldl (fun acc c => acc * 10 + (c.toNat - 48)) 0

/-- JavaScript `parseFloat` restricted to the `[\d.]+` capture: an optional
integer part, an optional dot with an optional fraction part, ignoring
anything after a second dot; NaN (modelled `none`) when there is no digit
at all. -/
def parseFloatQ (l : List Char) : Option ℚ :=
  let d1 := l.takeWhile Char.isDigit
  match l.drop d1.length with
  | '.' :: rest2 =>
      let d2 := rest2.takeWhile Char.isDigit
      if d1.isEmpty && d2.isEmpty then none
      else some ((digitsNat d1 : ℚ) + (digitsNat d2 : ℚ) / (10 : ℚ) ^ d2.length)
  | _ => if d1.isEmpty then none else some ((digitsNat d1 : ℚ))

/-- The `epochs` record of util.ts: milliseconds per unit, looked up by the
exact (case-preserved) captured key. -/
def epochs (u : String) : Option ℚ :=
  if u = "millisecond" || u = "milliseconds" || u = "ms" then some 1
  else if u = "second" || u = "seconds" || u = "sec" || u = "secs" || u = "s"
    then some 1000
  else if u = "minute" || u = "minutes" || u = "min" || u = "mins" || u = "m"
    then some 60000
  else if u = "hour" || u = "hours" || u = "h" then some 3600000
  else if u = "day" || u = "days" || u = "d" then some 86400000
  else none

/-- util.ts `strToMs`: sum `parseFloat(match[1]) * epochs[match[2]]` over
all regex matches; `none` models a NaN result. -/
def strToMs (str : String) : Option ℚ :=
  (scanMatches str.toList.length str.toList).foldl
    (fun acc m =>
      match acc, parseFloatQ m.1, epochs (String.mk m.2) with
      | some a, some qv, some e => some (a + qv * e)
      | _, _, _ => none)
    (some 0)

/-- C9: the documented duration-string parses: `"1days 50sec"` is
86450000 ms, `"4.5h"` is 16200000 ms, and `"45ms"` is 45 ms. -/
theorem C9_strToMs :
    strToMs "1days 50sec" = some 86450000 ∧
    strToMs "4.5h" = some 16200000 ∧
    strToMs "45ms" = some 45 := by
  refine ⟨?_, ?_, ?_⟩
  · unfold strToMs
    rw [show scanMatches (String.toList "1days 50sec").length
          (String.toList "1days 50sec")
        = [(['1'], ['d', 'a', 'y', 's']), (['5', '0'], ['s', 'e', 'c'])]
      from by decide]
    simp only [List.foldl]
    rw [show parseFloatQ ['1'] = some ((digitsNat ['1'] : ℚ)) from rfl,
      show digitsNat ['1'] = 1 from by decide,
      show parseFloatQ ['5', '0'] = some ((digitsNat ['5', '0'] : ℚ)) from rfl,
      show digitsNat ['5', '0'] = 50 from by decide,
      show epochs (String.mk ['d', 'a', 'y', 's']) = some 86400000 from by decide,
      show epochs (String.mk ['s', 'e', 'c']) = some 1000 from by decide]
    simp only [Option.some.injEq]
    norm_num
  · unfold strToMs
    rw [show scanMatches (String.toList "4.5h").length (String.toList "4.5h")
        = [(['4', '.', '5'], ['h'])] from by decide]
    simp only [List.foldl]
    rw [show parseFloatQ ['4', '.', '5']
          = some ((digitsNat ['4'] : ℚ)
            + (digitsNat ['5'] : ℚ) / (10 : ℚ) ^ (1 : ℕ)) from rfl,
      show digitsNat ['4'] = 4 from by decide,
      show digitsNat ['5'] = 5 from by decide,
      show epochs (String.mk ['h']) = some 3600000 from by decide]
    simp only [Option.some.injEq]
    norm_num
  · unfold strToMs
    rw [show scanMatches (String.toList "45ms").length (String.toList "45ms")
        = [(['4', '5'], ['m', 's'])] from by decide]
    simp only [List.foldl]
    rw [show parseFloatQ ['4', '5'] = some ((digitsNat ['4', '5'] : ℚ)) from rfl,
      show digitsNat ['4', '5'] = 45 from by decide,
      show epochs (String.mk ['m', 's']) = some 1 from by decide]
    simp only [Option.some.injEq]
    norm_num

/-! Concrete sample states used by the witness theorems -/

/-- The state of `new Timeout(cb, CAP + 1)` (id 1, default options). -/
def c1sample : TimerState :=
  { id := 1, delay := ((1 * TIMEOUT_MAXN + 1 : ℕ) : ℚ),
    timeLeft := ((1 * TIMEOUT_MAXN + 1 : ℕ) : ℚ), running := false,
    ran := false, isAborted := false, pending := none, inRegistry := true,
    listening := false, silent := false, cbThrows := false, cbCount := 0,
    runs := 0, times := .inf, persistent := true }

/-- The state of `new Interval(cb, 100, { times: 2 })` (id 1). -/
def c2sample : TimerState :=
  { id := 1, delay := ((0 : ℕ) : ℚ) * TIMEOUT_MAX + 100,
    timeLeft := ((0 : ℕ) : ℚ) * TIMEOUT_MAX + 100, running := false,
    ran := false, isAborted := false, pending := none, inRegistry := true,
    listening := false, silent := false, cbThrows := false, cbCount := 0,
    runs := 0, times := .num ((2 : ℕ) : ℚ), persistent := true }

/-- The state of `new Timeout(cb, 100, { signal })` with `signal` already
aborted (id 1). -/
def c4sampleT : TimerState :=
  { id := 1, delay := 100, timeLeft := 100, running := false, ran := false,
    isAborted := true, pending := none, inRegistry := true, listening := false,
    silent := false, cbThrows := false, cbCount := 0, runs := 0,
    times := .inf, persistent := true }

/-- The state of `new Interval(cb, 100, { times: 5, signal })` with `signal`
already aborted (id 1). -/
def c4sampleI : TimerState :=
  { id := 1, delay := 100, timeLeft := 100, running := false, ran := false,
    isAborted := true, pending := none, inRegistry := true, listening := false,
    silent := false, cbThrows := false, cbCount := 0, runs := 0,
    times := .num 5, persistent := true }

/-- The state of `new Interval(cb, 100, { times: 0 })` (id 1). -/
def c5sample : TimerState :=
  { id := 1, delay := ((0 : ℕ) : ℚ) * TIMEOUT_MAX + 100,
    timeLeft := ((0 : ℕ) : ℚ) * TIMEOUT_MAX + 100, running := false,
    ran := false, isAborted := false, pending := none, inRegistry := true,
    listening := false, silent := false, cbThrows := false, cbCount := 0,
    runs := 0, times := .num 0, persistent := true }

/-- The state of `new Timeout(cb, 100)` (id 1, default options). -/
def sampleT100 : TimerState :=
  { id := 1, delay := 100, timeLeft := 100, running := false, ran := false,
    isAborted := false, pending := none, inRegistry := true,
    listening := false, silent := false, cbThrows := false, cbCount := 0,
    runs := 0, times := .inf, persistent := true }

/-- A Timeout that has completed its single run naturally
(`ran = true`, not aborted, nothing armed). -/
def c7done : TimerState :=
  { id := 1, delay := 100, timeLeft := 100, running := false, ran := true,
    isAborted := false, pending := none, inRegistry := true,
    listening := false, silent := false, cbThrows := false, cbCount := 1,
    runs := 0, times := .inf, persistent := true }

/-- An aborted timer (as left behind by `abort()`). -/
def sampleAborted : TimerState :=
  { id := 7, delay := 100, timeLeft := 100, running := false, ran := false,
    isAborted := true, pending := none, inRegistry := false,
    listening := false, silent := false, cbThrows := false, cbCount := 0,
    runs := 0, times := .inf, persistent := true }

theorem C1_segmentation_witness :
    1 < TIMEOUT_MAXN ∧
    (Timeout.expire^[fillersFor 1 1] (Timeout.run c1sample).1).pending
      = some (.fire ((lastSeg 1 1 : ℕ) : ℚ)) :=
  ⟨by norm_num [TIMEOUT_MAXN],
    (C1_segmentation 1 1 1 c1sample (by norm_num [TIMEOUT_MAXN])
      (by rw [timer_construct_ok _ (Nat.cast_nonneg _)]; rfl)).2.1⟩

theorem C2_repeat_exact_witness :
    (1 ≤ 2) ∧ ((0 : ℚ) ≤ 100) ∧ ((100 : ℚ) ≤ TIMEOUT_MAX) ∧
    (Interval.expire^[2] (Interval.run c2sample).1).cbCount
      = min 2 (2 / (0 + 1)) :=
  ⟨by norm_num, by norm_num, by norm_num [TIMEOUT_MAX],
    (C2_repeat_exact 2 0 1 100 c2sample (by norm_num) (by norm_num)
      (by norm_num [TIMEOUT_MAX]) (Or.inl (by norm_num))
      (by rw [interval_construct_ok _ _ (by norm_num [TIMEOUT_MAX]) (by norm_num)]; rfl)
      2).1⟩

theorem C4_prefired_witness :
    c4sampleT.isAborted = true ∧ c4sampleT.inRegistry = true ∧
    (Timeout.run c4sampleT).1 = c4sampleT ∧
    c4sampleI.isAborted = true ∧ (Interval.run c4sampleI).1 = c4sampleI :=
  have h := C4_prefired 100 5 1 { signalPresent := true, signalAborted := true }
    c4sampleT c4sampleI [] rfl (by norm_num) (by norm_num)
    (by rw [timer_construct_ok _ (by norm_num : (0 : ℚ) ≤ 100)]; rfl)
    (by rw [interval_construct_ok _ _ (by norm_num : (0 : ℚ) ≤ 100)
      (by norm_num : (0 : ℚ) ≤ 5)]; rfl)
  ⟨h.1, h.2.1, h.2.2.1, h.2.2.2.2.1, h.2.2.2.2.2.2.1⟩

theorem C5_zero_times_witness :
    ((0 : ℚ) ≤ 100) ∧ ((100 : ℚ) ≤ TIMEOUT_MAX) ∧
    (Interval.expire^[1] (Interval.run c5sample).1).cbCount = 1 / (0 + 1) ∧
    (Interval.expire^[1] (Interval.run c5sample).1).ran = false :=
  have h := (C5_zero_times 0 1 100 c5sample (by norm_num)
    (by norm_num [TIMEOUT_MAX]) (Or.inl (by norm_num))
    (by rw [interval_construct_ok _ _ (by norm_num [TIMEOUT_MAX]) le_rfl]; rfl)).2 1
  ⟨by norm_num, by norm_num [TIMEOUT_MAX], h.1, h.2.2.1⟩

theorem C6_completion_witness :
    ((0 : ℚ) ≤ 100) ∧ ((100 : ℚ) ≤ TIMEOUT_MAX) ∧
    (Timeout.expire ((Timeout.run sampleT100).1)).ran = true ∧
    (Timeout.expire ((Timeout.run sampleT100).1)).inRegistry = true :=
  have h := C6_completion 100 1 sampleT100 [] (by norm_num)
    (by norm_num [TIMEOUT_MAX])
    (by rw [timer_construct_ok _ (by norm_num : (0 : ℚ) ≤ 100)]; rfl)
  ⟨by norm_num, by norm_num [TIMEOUT_MAX], h.1, h.2.2.2.2.1⟩

theorem C7_terminal_states_witness :
    c7done.running = false ∧ c7done.isAborted = false ∧ c7done.ran = true ∧
    (Timeout.run c7done).1.running = true ∧
    (Timeout.run c7done).1.ran = c7done.ran :=
  have h := C7_terminal_states sampleT100 c7done [] rfl rfl
  ⟨rfl, rfl, rfl, h.2.2.2.2.1, h.2.2.2.2.2.2⟩

theorem C8_validation_witness :
    ((-1 : ℚ) < 0) ∧
    (∃ e, Timer.construct (.num (-1)) {} 1 = .error e) ∧
    (∃ e, Interval.construct (.num 100) (some (.num (-1))) {} 1 = .error e) :=
  have h := C8_validation (-1) (-1) {} 1 none (by norm_num) (by norm_num)
  ⟨by norm_num, h.1, h.2.2.2.2.2 100 (by norm_num)⟩

theorem C10_run_returns_id_witness :
    (Timeout.run sampleAborted).2 = sampleAborted.id ∧
    (Timeout.run sampleAborted).1 = sampleAborted :=
  ⟨(C10_run_returns_id sampleAborted).1,
    ((C10_run_returns_id sampleAborted).2.2.2 rfl).1⟩
